import Mathlib

/-!
# Verification of the `item_wars` session-synchronization subsystem

Shallow embedding of the server-side session registry, command dispatcher and
wire data model of `src/src/main.rs` (repository `justmike2000/item_wars`),
together with proofs about the claims of the specification.

Modelling conventions:

* `f32` values are modelled as exact rationals (`Rat`).  No claim performs any
  floating-point arithmetic: the dispatcher and codec only copy and compare
  these values, so an exact carrier is adequate and keeps everything decidable.
* JSON values (`serde_json::Value`) are modelled by the inductive `Json`
  below.  Integer-valued JSON numbers (serde's `u64`/`i64` representations)
  are carried by `Json.int`, other numbers by `Json.num`.
* `serde_json`'s *text-level* parser (`from_str : &str -> Value`) is external
  library code, not code of this repository; dispatch functions take it as an
  explicit parameter `parse : String → Option Json` (`none` = parse error).
  The *derived* `Serialize`/`Deserialize` instances of the repository's own
  types are modelled faithfully by the `encode…`/`decode…` functions below.
* A Rust `panic!` (a failing `.unwrap()`) is modelled by an `Option`-valued
  dispatcher returning `none`: there is no response and no successor state.
-/

namespace ItemWars

/-- Model of `serde_json::Value`. -/
inductive Json where
  | null : Json
  | bool (b : Bool) : Json
  | int (n : Int) : Json
  | num (q : Rat) : Json
  | str (s : String) : Json
  | arr (elems : List Json) : Json
  | obj (fields : List (String × Json)) : Json

/-- Field lookup on a JSON object; `none` for a missing key or a non-object,
matching `Value::get`. -/
def Json.getField : Json → String → Option Json
  | .obj fields, key => List.lookup key fields
  | _, _ => none

/-- Models `value[key].as_str()`: indexing a `serde_json::Value` yields `Null`
for a missing key or non-object, and `as_str` yields `None` unless the result
is a string. -/
def Json.strField (j : Json) (key : String) : Option String :=
  match j.getField key with
  | some (Json.str s) => some s
  | _ => none

/-- Models `value[key]`: `Null` for a missing key (serde's `Value::index`). -/
def Json.fieldOr (j : Json) (key : String) : Json :=
  (j.getField key).getD Json.null

/-- The keys of a JSON object (in order), `[]` for non-objects. -/
def Json.keys : Json → List String
  | .obj fields => fields.map Prod.fst
  | _ => []

def Json.asStr : Json → Option String
  | .str s => some s
  | _ => none

def Json.asBool : Json → Option Bool
  | .bool b => some b
  | _ => none

/-- Deserializing an `i64` field: only integer JSON numbers are accepted
(serde_json does not convert `f64` to `i64`). -/
def Json.asInt : Json → Option Int
  | .int n => some n
  | _ => none

/-- Deserializing an `f32`/`f64` field: serde accepts any JSON number. -/
def Json.asNum : Json → Option Rat
  | .num q => some q
  | .int n => some (n : Rat)
  | _ => none

/-! ## Constants (`src/src/main.rs`, lines 27-57) -/

def MAX_PLAYERS : Nat := 2
def PLAYER_MAX_HP : Int := 100
def PLAYER_MAX_MP : Int := 30
def PLAYER_MAX_STR : Int := 10
def PLAYER_STARTING_ACCEL : Rat := 0.4
def PLAYER_CELL_HEIGHT : Rat := 44.0
def PLAYER_CELL_WIDTH : Rat := 34.0

/-! ## Wire data model (`Position`, `Direction`, `Potion`, `Player`) -/

/-- `struct Position` (lines 59-65): an axis-aligned rectangle. -/
structure Position where
  x : Rat
  y : Rat
  w : Rat
  h : Rat
  deriving DecidableEq

/-- `struct Direction` (lines 79-85): four movement-intent booleans. -/
structure Direction where
  up : Bool
  down : Bool
  left : Bool
  right : Bool
  deriving DecidableEq

/-- `enum PotionType` (lines 87-91). -/
inductive PotionType where
  | Health : PotionType
  | Mana : PotionType
  deriving DecidableEq

/-- `std::time::Duration`, serialized by serde as `secs`/`nanos`. -/
structure Duration where
  secs : Nat
  nanos : Nat
  deriving DecidableEq

/-- `struct Potion` (lines 93-99).  The `texture` handle is an opaque
GPU-resource handle, marked `skip_serializing, skip_deserializing`; it is
modelled by `Option Unit`. -/
structure Potion where
  pos : Position
  potion_type : PotionType
  texture : Option Unit
  deriving DecidableEq

/-- `struct Player` (lines 144-171).  The `texture` handle and the
`last_animation : Option<Instant>` timestamp are marked
`skip_serializing, skip_deserializing`; both are modelled opaquely by
`Option Unit` since no claim inspects their contents. -/
structure Player where
  body : Position
  dir : Direction
  last_dir : Direction
  ate : Option Potion
  name : String
  hp : Int
  mp : Int
  str : Int
  current_accel : Rat
  jumping : Bool
  jump_offset : Rat
  jump_direction : Bool
  texture : Option Unit
  animation_frame : Rat
  animation_total_frames : Rat
  last_animation : Option Unit
  animation_duration : Duration

/-- `Player::new` (lines 174-196).  `Instant::now()` is modelled by
`some ()` (its value is never inspected by this subsystem). -/
def Player.new (name : String) (pos : Position) (texture : Option Unit) : Player :=
  { name := name
    body := pos
    dir := { up := false, down := false, left := false, right := false }
    last_dir := { up := false, down := false, left := false, right := false }
    ate := none
    current_accel := PLAYER_STARTING_ACCEL
    hp := PLAYER_MAX_HP
    mp := PLAYER_MAX_MP
    str := PLAYER_MAX_STR
    texture := texture
    jumping := false
    jump_offset := 0.0
    jump_direction := true
    animation_frame := 0.0
    animation_total_frames := 4.0
    last_animation := some ()
    animation_duration := { secs := 0, nanos := 150000000 } }

/-! ## Derived serde codec for the wire data model

`#[derive(Serialize, Deserialize)]` on a struct serializes it as a JSON
object with one entry per non-skipped field, in declaration order, and
deserializes by looking fields up by name (order-independent); fields marked
`skip_deserializing` are filled with their `Default` value (`None` for
`Option`), and an `Option` field that is missing or `null` deserializes to
`None`.  Unit enum variants serialize as their name string. -/

def encodePosition (p : Position) : Json :=
  Json.obj [("x", Json.num p.x), ("y", Json.num p.y),
            ("w", Json.num p.w), ("h", Json.num p.h)]

def decodePosition (j : Json) : Option Position :=
  match (j.fieldOr "x").asNum, (j.fieldOr "y").asNum,
        (j.fieldOr "w").asNum, (j.fieldOr "h").asNum with
  | some x, some y, some w, some h => some { x := x, y := y, w := w, h := h }
  | _, _, _, _ => none

def encodeDirection (d : Direction) : Json :=
  Json.obj [("up", Json.bool d.up), ("down", Json.bool d.down),
            ("left", Json.bool d.left), ("right", Json.bool d.right)]

def decodeDirection (j : Json) : Option Direction :=
  match (j.fieldOr "up").asBool, (j.fieldOr "down").asBool,
        (j.fieldOr "left").asBool, (j.fieldOr "right").asBool with
  | some u, some d, some l, some r =>
      some { up := u, down := d, left := l, right := r }
  | _, _, _, _ => none

def encodePotionType : PotionType → Json
  | PotionType.Health => Json.str "Health"
  | PotionType.Mana => Json.str "Mana"

def decodePotionType : Json → Option PotionType
  | Json.str "Health" => some PotionType.Health
  | Json.str "Mana" => some PotionType.Mana
  | _ => none

def encodeDuration (d : Duration) : Json :=
  Json.obj [("secs", Json.int (Int.ofNat d.secs)),
            ("nanos", Json.int (Int.ofNat d.nanos))]

def decodeDuration (j : Json) : Option Duration :=
  match (j.fieldOr "secs").asInt, (j.fieldOr "nanos").asInt with
  | some (Int.ofNat s), some (Int.ofNat n) => some { secs := s, nanos := n }
  | _, _ => none

def encodePotion (p : Potion) : Json :=
  Json.obj [("pos", encodePosition p.pos),
            ("potion_type", encodePotionType p.potion_type)]

def decodePotion (j : Json) : Option Potion :=
  match decodePosition (j.fieldOr "pos"),
        decodePotionType (j.fieldOr "potion_type") with
  | some pos, some t => some { pos := pos, potion_type := t, texture := none }
  | _, _ => none

/-- `Option<Potion>`: `null` (or a missing field) deserializes to `None`. -/
def decodeOptPotion : Json → Option (Option Potion)
  | Json.null => some none
  | j => (decodePotion j).map some

/-- serde `Serialize` for `Player`: all fields in declaration order except
the two `skip_serializing` fields `texture` and `last_animation`. -/
def encodePlayer (p : Player) : Json :=
  Json.obj [
    ("body", encodePosition p.body),
    ("dir", encodeDirection p.dir),
    ("last_dir", encodeDirection p.last_dir),
    ("ate", match p.ate with | none => Json.null | some pot => encodePotion pot),
    ("name", Json.str p.name),
    ("hp", Json.int p.hp),
    ("mp", Json.int p.mp),
    ("str", Json.int p.str),
    ("current_accel", Json.num p.current_accel),
    ("jumping", Json.bool p.jumping),
    ("jump_offset", Json.num p.jump_offset),
    ("jump_direction", Json.bool p.jump_direction),
    ("animation_frame", Json.num p.animation_frame),
    ("animation_total_frames", Json.num p.animation_total_frames),
    ("animation_duration", encodeDuration p.animation_duration)]

/-- serde `Deserialize` for `Player`: every non-skipped field is required
(except the `Option` field `ate`); `texture` and `last_animation` are
`skip_deserializing` and are filled with `Default::default()` = `None`. -/
def decodePlayer (j : Json) : Option Player :=
  (decodePosition (j.fieldOr "body")).bind fun body =>
  (decodeDirection (j.fieldOr "dir")).bind fun dir =>
  (decodeDirection (j.fieldOr "last_dir")).bind fun ld =>
  (decodeOptPotion (j.fieldOr "ate")).bind fun ate =>
  ((j.fieldOr "name").asStr).bind fun name =>
  ((j.fieldOr "hp").asInt).bind fun hp =>
  ((j.fieldOr "mp").asInt).bind fun mp =>
  ((j.fieldOr "str").asInt).bind fun strv =>
  ((j.fieldOr "current_accel").asNum).bind fun accel =>
  ((j.fieldOr "jumping").asBool).bind fun jumping =>
  ((j.fieldOr "jump_offset").asNum).bind fun joff =>
  ((j.fieldOr "jump_direction").asBool).bind fun jdir =>
  ((j.fieldOr "animation_frame").asNum).bind fun aframe =>
  ((j.fieldOr "animation_total_frames").asNum).bind fun atotal =>
  (decodeDuration (j.fieldOr "animation_duration")).bind fun adur =>
  some { body := body, dir := dir, last_dir := ld, ate := ate, name := name,
         hp := hp, mp := mp, str := strv, current_accel := accel,
         jumping := jumping, jump_offset := joff, jump_direction := jdir,
         texture := none, animation_frame := aframe,
         animation_total_frames := atotal, last_animation := none,
         animation_duration := adur }

/-! ## Sessions and the registry (`NetworkedGame`, `GameServer`) -/

/-- `struct NetworkedGame` (lines 490-496). -/
structure NetworkedGame where
  players : List Player
  session_id : String
  started : Bool
  completed : Bool

/-- `NetworkedGame::new` (lines 500-509): the freshly generated
`Uuid::new_v4().to_string()` is nondeterministic, so the model takes it as
the argument `session_id`. -/
def NetworkedGame.new (session_id : String) : NetworkedGame :=
  { players := [], session_id := session_id, started := false, completed := false }

/-- serde `Serialize` for `NetworkedGame` (used by the `sendposition` and
`getworld` responses `json!(game)`). -/
def encodeNetworkedGame (g : NetworkedGame) : Json :=
  Json.obj [("players", Json.arr (g.players.map encodePlayer)),
            ("session_id", Json.str g.session_id),
            ("started", Json.bool g.started),
            ("completed", Json.bool g.completed)]

/-- Rust's `char::escape_debug` on the characters that can occur here: quote,
backslash and the common control characters get a backslash escape, everything
else (printable characters, in particular the ASCII of uuid session ids) is
unchanged. -/
def escapeDebugChar (c : Char) : String :=
  if c = '"' then "\\\""
  else if c = '\\' then "\\\\"
  else if c = '\n' then "\\n"
  else if c = '\r' then "\\r"
  else if c = '\t' then "\\t"
  else c.toString

/-- Rust's `{:?}` (Debug) formatting of a `String`: the escaped content
wrapped in double quotes.  Used by the `joingame` full-game error
(`format!("game {:?} is full", game.session_id)`, line 591). -/
def rustDebugString (s : String) : String :=
  "\"" ++ String.join (s.toList.map escapeDebugChar) ++ "\""

/-- The `Invalid Game` error body
(`json!({"error": format!("Invalid Game {}", game_id)})`). -/
def invalidGameResp (game_id : String) : Json :=
  Json.obj [("error", Json.str ("Invalid Game " ++ game_id))]

/-- The `joingame` logic on the session found by `iter_mut().find`
(lines 577-592): under capacity, push a fresh `Player::new` (spawned at the
origin with the fixed cell size) and flip `started` the instant capacity is
reached; at capacity, answer the full-game error (note the `{:?}` Debug
formatting of the id) and leave the session untouched. -/
def NetworkedGame.join (g : NetworkedGame) (name : String) : NetworkedGame × Json :=
  if g.players.length < MAX_PLAYERS then
    let player_pos : Position :=
      { x := 0.0, y := 0.0, w := PLAYER_CELL_WIDTH, h := PLAYER_CELL_HEIGHT }
    let g1 : NetworkedGame := { g with players := g.players ++ [Player.new name player_pos none] }
    let g2 : NetworkedGame := if g1.players.length = MAX_PLAYERS then { g1 with started := true } else g1
    let started_string : String := if g2.started then "started" else "not started"
    (g2, Json.obj [("info", Json.str ("joined " ++ started_string ++ " game " ++
        g2.session_id ++ " with " ++ toString g2.players.length ++ " players"))])
  else
    (g, Json.obj [("error", Json.str ("game " ++ rustDebugString g.session_id ++ " is full"))])

/-- `game.players.iter_mut().find(|p| &p.name == name)` followed by
`*player = update_player`: replace the first player with the given name. -/
def replaceFirstPlayer (name : String) (newP : Player) : List Player → List Player
  | [] => []
  | p :: ps => if p.name == name then newP :: ps else p :: replaceFirstPlayer name newP ps

/-- The `sendposition` logic on the session found by `iter_mut().find`
(lines 608-613): if a player with the requested name exists, the `meta`
field is `as_str().unwrap()`ed and `serde_json::from_str::<Player>(..).unwrap()`ed
- both unwraps panic (`none`) on failure - and the player record is replaced
wholesale; if no player matches, the session is left untouched.  The session
(updated or not) is the caller's response body. -/
def NetworkedGame.sendposition (parse : String → Option Json) (g : NetworkedGame)
    (name : String) (meta : Json) : Option NetworkedGame :=
  if g.players.any (fun p => p.name == name) then
    match meta with
    | Json.str s =>
        match (parse s).bind decodePlayer with
        | some newP => some { g with players := replaceFirstPlayer name newP g.players }
        | none => none
    | _ => none
  else some g

/-- `self.games.iter_mut().find(|g| &g.session_id == game_id)` for `joingame`:
update the first session with the given id in place; `none` when no session
matches. -/
def joingameAux (game_id name : String) : List NetworkedGame → Option (List NetworkedGame × Json)
  | [] => none
  | g :: gs =>
    if g.session_id == game_id then
      some ((g.join name).1 :: gs, (g.join name).2)
    else
      (joingameAux game_id name gs).map (fun r => (g :: r.1, r.2))

/-- `self.games.iter_mut().find(|g| &g.session_id == game_id)` for
`sendposition`.  Outer `none`: no session matches; `some none`: the found
session's handler panicked; `some (some (games, resp))`: the updated registry
and the encoded session response. -/
def sendpositionAux (parse : String → Option Json) (game_id name : String) (meta : Json) :
    List NetworkedGame → Option (Option (List NetworkedGame × Json))
  | [] => none
  | g :: gs =>
    if g.session_id == game_id then
      match NetworkedGame.sendposition parse g name meta with
      | some g' => some (some (g' :: gs, encodeNetworkedGame g'))
      | none => some none
    else
      (sendpositionAux parse game_id name meta gs).map
        (Option.map (fun r => (g :: r.1, r.2)))

/-- The body of `GameServer::handle_connection` (lines 558-631) after the
wire payload has been decoded to a `serde_json::Value`: one dispatch step.
`games` is `self.games`, `freshId` the uuid `NetworkedGame::new` would
generate, `req` the decoded request.  The result is `none` exactly when the
Rust code panics (the `meta` unwraps of the `sendposition` branch), and
`some (games', response)` otherwise, where `response` is the value sent back
to the packet's origin. -/
def handle_decoded (parse : String → Option Json) (games : List NetworkedGame)
    (freshId : String) (req : Json) : Option (List NetworkedGame × Json) :=
  match req.strField "command" with
  | some "newgame" =>
      some (games ++ [NetworkedGame.new freshId],
            Json.obj [("game_id", Json.str (NetworkedGame.new freshId).session_id)])
  | some "listgames" =>
      some (games, Json.obj [("games", Json.arr ((games.filter (fun g => !g.started)).map (fun g =>
        Json.arr [Json.str g.session_id, Json.str (toString g.players.length)])))])
  | some "joingame" =>
      match joingameAux ((req.strField "game_id").getD "") ((req.strField "name").getD "") games with
      | some r => some r
      | none => some (games, invalidGameResp ((req.strField "game_id").getD ""))
  | some "gameinfo" =>
      match games.find? (fun g => g.session_id == (req.strField "game_id").getD "") with
      | some game =>
          some (games, Json.obj [("game",
            Json.arr [Json.str game.session_id, Json.str (toString game.players.length)])])
      | none => some (games, invalidGameResp ((req.strField "game_id").getD ""))
  | some "sendposition" =>
      match sendpositionAux parse ((req.strField "game_id").getD "")
          ((req.strField "name").getD "") (req.fieldOr "meta") games with
      | some (some r) => some r
      | some none => none
      | none => some (games, invalidGameResp ((req.strField "game_id").getD ""))
  | some "getworld" =>
      match games.find? (fun g => g.session_id == (req.strField "game_id").getD "") with
      | some game => some (games, encodeNetworkedGame game)
      | none => some (games, invalidGameResp ((req.strField "game_id").getD ""))
  | _ => some (games, Json.obj [("error", Json.str "Invalid Command")])

/-- `GameServer::handle_connection` (lines 548-633) on one raw packet: a
payload that does not decode is logged and dropped with no response
(`some (games, none)`); otherwise the decoded request is dispatched and its
response sent (`some (games', some resp)`); `none` models a panic. -/
def handle_connection (parse : String → Option Json) (games : List NetworkedGame)
    (freshId : String) (raw : String) : Option (List NetworkedGame × Option Json) :=
  match parse raw with
  | none => some (games, none)
  | some req => (handle_decoded parse games freshId req).map (fun r => (r.1, some r.2))

/-- The registry states reachable from server start (`games: vec![]`,
line 523) by any sequence of successfully dispatched commands, with arbitrary
fresh ids. -/
inductive Reachable (parse : String → Option Json) : List NetworkedGame → Prop where
  | init : Reachable parse []
  | step {games games' : List NetworkedGame} {freshId : String} {req resp : Json} :
      Reachable parse games →
      handle_decoded parse games freshId req = some (games', resp) →
      Reachable parse games'

end ItemWars

namespace ItemWars

/-! ### Helper lemmas -/

/-- Both invariants of the spec's data model, per session. -/
def gameINV (g : NetworkedGame) : Prop :=
  g.players.length ≤ MAX_PLAYERS ∧ (g.started = true → g.players.length = MAX_PLAYERS)

lemma replaceFirstPlayer_length (nm : String) (newP : Player) :
    ∀ l : List Player, (replaceFirstPlayer nm newP l).length = l.length := by
  intro l
  induction l with
  | nil => rfl
  | cons p ps ih =>
      unfold replaceFirstPlayer
      split
      · simp
      · simp [ih]

/-- How one session can change in one dispatch step of the given command. -/
def sessionStep (cmd : String) (g g' : NetworkedGame) : Prop :=
  g' = g ∨
  (cmd = "joingame" ∧ ∃ nm, g' = (g.join nm).1) ∨
  (cmd = "sendposition" ∧ ∃ nm p, g' = { g with players := replaceFirstPlayer nm p g.players })

lemma join_room {g : NetworkedGame} (nm : String) (h : g.players.length < MAX_PLAYERS) :
    (g.join nm).1.players = g.players ++ [Player.new nm
        { x := 0.0, y := 0.0, w := PLAYER_CELL_WIDTH, h := PLAYER_CELL_HEIGHT } none] ∧
    (g.join nm).1.session_id = g.session_id ∧
    (g.join nm).1.started = (if g.players.length + 1 = MAX_PLAYERS then true else g.started) ∧
    (g.join nm).1.completed = g.completed := by
  unfold NetworkedGame.join
  rw [if_pos h]
  by_cases h2 : g.players.length + 1 = MAX_PLAYERS
  · simp [List.length_append, h2]
  · simp [List.length_append, h2]

lemma join_full {g : NetworkedGame} (nm : String) (h : ¬ g.players.length < MAX_PLAYERS) :
    g.join nm = (g, Json.obj [("error",
      Json.str ("game " ++ rustDebugString g.session_id ++ " is full"))]) := by
  unfold NetworkedGame.join
  rw [if_neg h]

lemma sessionStep_inv {cmd : String} {g g' : NetworkedGame}
    (hinv : gameINV g) (hs : sessionStep cmd g g') : gameINV g' := by
  rcases hs with rfl | ⟨-, nm, rfl⟩ | ⟨-, nm, p, rfl⟩
  · exact hinv
  · by_cases hroom : g.players.length < MAX_PLAYERS
    · obtain ⟨hp, -, hst, -⟩ := join_room nm hroom
      constructor
      · rw [hp]; simp [List.length_append]; omega
      · intro h
        rw [hst] at h
        rw [hp, List.length_append]
        by_cases h2 : g.players.length + 1 = MAX_PLAYERS
        · simpa using h2
        · rw [if_neg h2] at h
          exact absurd (hinv.2 h) (by omega)
    · rw [join_full nm hroom]
      exact hinv
  · constructor
    · simpa [replaceFirstPlayer_length] using hinv.1
    · intro h
      simpa [replaceFirstPlayer_length] using hinv.2 h

lemma joingameAux_forall₂ (game_id nm : String) :
    ∀ (l l' : List NetworkedGame) (resp : Json),
      joingameAux game_id nm l = some (l', resp) →
      List.Forall₂ (sessionStep "joingame") l l' := by
  intro l
  induction l with
  | nil => intro l' resp h; simp [joingameAux] at h
  | cons g gs ih =>
      intro l' resp h
      unfold joingameAux at h
      split at h
      · simp only [Option.some.injEq, Prod.mk.injEq] at h
        rw [← h.1]
        exact List.Forall₂.cons (Or.inr (Or.inl ⟨rfl, nm, rfl⟩))
          (List.forall₂_same.mpr (fun _ _ => Or.inl rfl))
      · cases hrec : joingameAux game_id nm gs with
        | none => rw [hrec] at h; simp at h
        | some r =>
            rw [hrec] at h
            simp only [Option.map_some', Option.some.injEq, Prod.mk.injEq] at h
            rw [← h.1]
            exact List.Forall₂.cons (Or.inl rfl) (ih r.1 r.2 (by rw [hrec]))

lemma sendposition_cases {parse : String → Option Json} {g g' : NetworkedGame}
    {nm : String} {meta : Json}
    (h : NetworkedGame.sendposition parse g nm meta = some g') :
    g' = g ∨ ∃ p, g' = { g with players := replaceFirstPlayer nm p g.players } := by
  unfold NetworkedGame.sendposition at h
  split at h
  · split at h
    · split at h
      · simp only [Option.some.injEq] at h
        exact Or.inr ⟨_, h.symm⟩
      · simp at h
    · simp at h
  · simp only [Option.some.injEq] at h
    exact Or.inl h.symm

lemma sendpositionAux_forall₂ (parse : String → Option Json) (game_id nm : String) (meta : Json) :
    ∀ (l l' : List NetworkedGame) (resp : Json),
      sendpositionAux parse game_id nm meta l = some (some (l', resp)) →
      List.Forall₂ (sessionStep "sendposition") l l' := by
  intro l
  induction l with
  | nil => intro l' resp h; simp [sendpositionAux] at h
  | cons g gs ih =>
      intro l' resp h
      unfold sendpositionAux at h
      split at h
      · split at h
        · rename_i g' hg'
          simp only [Option.some.injEq, Prod.mk.injEq] at h
          rw [← h.1]
          refine List.Forall₂.cons ?_ (List.forall₂_same.mpr (fun _ _ => Or.inl rfl))
          rcases sendposition_cases hg' with rfl | ⟨p, rfl⟩
          · exact Or.inl rfl
          · exact Or.inr (Or.inr ⟨rfl, nm, p, rfl⟩)
        · simp at h
      · cases hrec : sendpositionAux parse game_id nm meta gs with
        | none => rw [hrec] at h; simp at h
        | some o =>
            rw [hrec] at h
            cases o with
            | none => simp at h
            | some r =>
                simp only [Option.map_some', Option.some.injEq, Prod.mk.injEq] at h
                rw [← h.1]
                exact List.Forall₂.cons (Or.inl rfl) (ih r.1 r.2 (by rw [hrec]))

lemma step_shape {parse : String → Option Json} {games games' : List NetworkedGame}
    {freshId : String} {req resp : Json}
    (hstep : handle_decoded parse games freshId req = some (games', resp)) :
    (∃ gNew, games' = games ++ [gNew] ∧ gNew.players = [] ∧ gNew.started = false) ∨
    List.Forall₂ (sessionStep ((req.strField "command").getD "")) games games' := by
  unfold handle_decoded at hstep
  split at hstep
  · -- newgame
    simp only [Option.some.injEq, Prod.mk.injEq] at hstep
    exact Or.inl ⟨_, hstep.1.symm, rfl, rfl⟩
  · -- listgames
    simp only [Option.some.injEq, Prod.mk.injEq] at hstep
    rw [← hstep.1]
    exact Or.inr (List.forall₂_same.mpr (fun _ _ => Or.inl rfl))
  · -- joingame
    rename_i hcmd
    split at hstep
    · rename_i r hr
      simp only [Option.some.injEq] at hstep
      rw [hstep] at hr
      refine Or.inr ?_
      have := joingameAux_forall₂ ((req.strField "game_id").getD "")
        ((req.strField "name").getD "") games games' resp hr
      simpa [hcmd] using this
    · simp only [Option.some.injEq, Prod.mk.injEq] at hstep
      rw [← hstep.1]
      exact Or.inr (List.forall₂_same.mpr (fun _ _ => Or.inl rfl))
  · -- gameinfo
    split at hstep <;>
      (simp only [Option.some.injEq, Prod.mk.injEq] at hstep;
       rw [← hstep.1];
       exact Or.inr (List.forall₂_same.mpr (fun _ _ => Or.inl rfl)))
  · -- sendposition
    rename_i hcmd
    split at hstep
    · rename_i r hr
      simp only [Option.some.injEq] at hstep
      rw [hstep] at hr
      refine Or.inr ?_
      have := sendpositionAux_forall₂ parse ((req.strField "game_id").getD "")
        ((req.strField "name").getD "") (req.fieldOr "meta") games games' resp hr
      simpa [hcmd] using this
    · simp at hstep
    · simp only [Option.some.injEq, Prod.mk.injEq] at hstep
      rw [← hstep.1]
      exact Or.inr (List.forall₂_same.mpr (fun _ _ => Or.inl rfl))
  · -- getworld
    split at hstep <;>
      (simp only [Option.some.injEq, Prod.mk.injEq] at hstep;
       rw [← hstep.1];
       exact Or.inr (List.forall₂_same.mpr (fun _ _ => Or.inl rfl)))
  · -- invalid command
    simp only [Option.some.injEq, Prod.mk.injEq] at hstep
    rw [← hstep.1]
    exact Or.inr (List.forall₂_same.mpr (fun _ _ => Or.inl rfl))

lemma forall₂_mem_right {α β : Type} {r : α → β → Prop} :
    ∀ {l : List α} {l' : List β}, List.Forall₂ r l l' → ∀ b ∈ l', ∃ a ∈ l, r a b := by
  intro l l' h
  induction h with
  | nil => intro b hb; cases hb
  | cons hr _ ih =>
      intro b hb
      rcases List.mem_cons.mp hb with rfl | hb
      · exact ⟨_, List.mem_cons_self _ _, hr⟩
      · rcases ih b hb with ⟨a, ha, har⟩
        exact ⟨a, List.mem_cons_of_mem _ ha, har⟩

lemma reachable_inv {parse : String → Option Json} {games : List NetworkedGame}
    (h : Reachable parse games) : ∀ g ∈ games, gameINV g := by
  induction h with
  | init => intro g hg; cases hg
  | step _ hstep ih =>
      rename_i games games' freshId req resp
      intro g' hg'
      rcases step_shape hstep with ⟨gNew, rfl, hp, hs⟩ | hf
      · rcases List.mem_append.mp hg' with hg' | hg'
        · exact ih g' hg'
        · rcases List.mem_singleton.mp hg' with rfl
          exact ⟨by simp [hp], by simp [hs]⟩
      · rcases forall₂_mem_right hf g' hg' with ⟨g, hg, hgs⟩
        exact sessionStep_inv (ih g hg) hgs

end ItemWars

namespace ItemWars

/-! ### Branch lemmas: `handle_decoded` on each recognized command -/

lemma handle_decoded_newgame {parse : String → Option Json} {games : List NetworkedGame}
    {freshId : String} {req : Json} (h : req.strField "command" = some "newgame") :
    handle_decoded parse games freshId req =
      some (games ++ [NetworkedGame.new freshId],
            Json.obj [("game_id", Json.str freshId)]) := by
  unfold handle_decoded
  rw [h]
  rfl

lemma handle_decoded_listgames {parse : String → Option Json} {games : List NetworkedGame}
    {freshId : String} {req : Json} (h : req.strField "command" = some "listgames") :
    handle_decoded parse games freshId req =
      some (games, Json.obj [("games", Json.arr ((games.filter (fun g => !g.started)).map (fun g =>
        Json.arr [Json.str g.session_id, Json.str (toString g.players.length)])))]) := by
  unfold handle_decoded
  rw [h]
  rfl

lemma handle_decoded_joingame {parse : String → Option Json} {games : List NetworkedGame}
    {freshId : String} {req : Json} (h : req.strField "command" = some "joingame") :
    handle_decoded parse games freshId req =
      match joingameAux ((req.strField "game_id").getD "") ((req.strField "name").getD "") games with
      | some r => some r
      | none => some (games, invalidGameResp ((req.strField "game_id").getD "")) := by
  unfold handle_decoded
  rw [h]
  rfl

lemma handle_decoded_gameinfo {parse : String → Option Json} {games : List NetworkedGame}
    {freshId : String} {req : Json} (h : req.strField "command" = some "gameinfo") :
    handle_decoded parse games freshId req =
      match games.find? (fun g => g.session_id == (req.strField "game_id").getD "") with
      | some game =>
          some (games, Json.obj [("game",
            Json.arr [Json.str game.session_id, Json.str (toString game.players.length)])])
      | none => some (games, invalidGameResp ((req.strField "game_id").getD "")) := by
  unfold handle_decoded
  rw [h]
  rfl

lemma handle_decoded_sendposition {parse : String → Option Json} {games : List NetworkedGame}
    {freshId : String} {req : Json} (h : req.strField "command" = some "sendposition") :
    handle_decoded parse games freshId req =
      match sendpositionAux parse ((req.strField "game_id").getD "")
          ((req.strField "name").getD "") (req.fieldOr "meta") games with
      | some (some r) => some r
      | some none => none
      | none => some (games, invalidGameResp ((req.strField "game_id").getD "")) := by
  unfold handle_decoded
  rw [h]
  rfl

lemma handle_decoded_getworld {parse : String → Option Json} {games : List NetworkedGame}
    {freshId : String} {req : Json} (h : req.strField "command" = some "getworld") :
    handle_decoded parse games freshId req =
      match games.find? (fun g => g.session_id == (req.strField "game_id").getD "") with
      | some game => some (games, encodeNetworkedGame game)
      | none => some (games, invalidGameResp ((req.strField "game_id").getD "")) := by
  unfold handle_decoded
  rw [h]
  rfl

/-! ### Find-first lemmas for the two mutating branches -/

lemma joingameAux_not_found (game_id nm : String) :
    ∀ l : List NetworkedGame, (∀ g ∈ l, (g.session_id == game_id) = false) →
      joingameAux game_id nm l = none := by
  intro l
  induction l with
  | nil => intro _; rfl
  | cons a as ih =>
      intro h
      unfold joingameAux
      rw [if_neg (by simp [h a (List.mem_cons_self a as)]),
          ih (fun g hg => h g (List.mem_cons_of_mem a hg))]
      rfl

lemma sendpositionAux_not_found (parse : String → Option Json) (game_id nm : String) (meta : Json) :
    ∀ l : List NetworkedGame, (∀ g ∈ l, (g.session_id == game_id) = false) →
      sendpositionAux parse game_id nm meta l = none := by
  intro l
  induction l with
  | nil => intro _; rfl
  | cons a as ih =>
      intro h
      unfold sendpositionAux
      rw [if_neg (by simp [h a (List.mem_cons_self a as)]),
          ih (fun g hg => h g (List.mem_cons_of_mem a hg))]
      rfl

lemma joingameAux_find (game_id nm : String) :
    ∀ (l : List NetworkedGame) (g : NetworkedGame),
      l.find? (fun x => x.session_id == game_id) = some g →
      ∃ l', joingameAux game_id nm l = some (l', (g.join nm).2) ∧
        (g.join nm).1 ∈ l' ∧ ((g.join nm).1 = g → l' = l) := by
  intro l
  induction l with
  | nil => intro g h; simp at h
  | cons a as ih =>
      intro g h
      by_cases ha : (a.session_id == game_id) = true
      · rw [List.find?_cons_of_pos as ha] at h
        obtain rfl : a = g := by injection h
        refine ⟨(a.join nm).1 :: as, ?_, List.mem_cons_self _ _, ?_⟩
        · unfold joingameAux
          rw [if_pos ha]
        · intro he
          rw [he]
      · rw [List.find?_cons_of_neg as ha] at h
        rcases ih g h with ⟨l', hl', hmem, hid⟩
        refine ⟨a :: l', ?_, List.mem_cons_of_mem _ hmem, ?_⟩
        · unfold joingameAux
          rw [if_neg ha, hl']
          rfl
        · intro he
          rw [hid he]

lemma sendpositionAux_noop (parse : String → Option Json) (game_id nm : String) (meta : Json) :
    ∀ (l : List NetworkedGame) (g : NetworkedGame),
      l.find? (fun x => x.session_id == game_id) = some g →
      NetworkedGame.sendposition parse g nm meta = some g →
      sendpositionAux parse game_id nm meta l = some (some (l, encodeNetworkedGame g)) := by
  intro l
  induction l with
  | nil => intro g h; simp at h
  | cons a as ih =>
      intro g h hg
      by_cases ha : (a.session_id == game_id) = true
      · rw [List.find?_cons_of_pos as ha] at h
        obtain rfl : a = g := by injection h
        unfold sendpositionAux
        rw [if_pos ha, hg]
      · rw [List.find?_cons_of_neg as ha] at h
        unfold sendpositionAux
        rw [if_neg ha, ih g h hg]
        rfl

end ItemWars

namespace ItemWars

/-! ### Auxiliary facts for the per-claim theorems -/

lemma forall₂_imp_mem {α β : Type} {r s : α → β → Prop} :
    ∀ {l : List α} {l' : List β}, List.Forall₂ r l l' →
      (∀ a ∈ l, ∀ b, r a b → s a b) → List.Forall₂ s l l' := by
  intro l l' h
  induction h with
  | nil => intro _; exact List.Forall₂.nil
  | cons hr _ ih =>
      intro hmono
      exact List.Forall₂.cons
        (hmono _ (List.mem_cons_self _ _) _ hr)
        (ih (fun a ha b hb => hmono a (List.mem_cons_of_mem _ ha) b hb))

lemma getD_eq_some {o : Option String} {s : String} (hne : s ≠ "") (h : o.getD "" = s) :
    o = some s := by
  cases o with
  | none => exact absurd h.symm hne
  | some t => simpa using h

lemma sessionStep_props {cmd : String} {g g' : NetworkedGame}
    (hinv : gameINV g) (hs : sessionStep cmd g g') :
    g'.session_id = g.session_id ∧
    (g.started = true → g'.started = true) ∧
    (g'.started = true → g'.players.length = MAX_PLAYERS) ∧
    (g.started = false → g'.started = true →
      cmd = "joingame" ∧ g.players.length + 1 = MAX_PLAYERS ∧
      g'.players.length = MAX_PLAYERS) ∧
    (g.players.length < MAX_PLAYERS → g'.players.length = MAX_PLAYERS →
      g'.started = true) := by
  have hinv' : gameINV g' := sessionStep_inv hinv hs
  rcases hs with rfl | ⟨hcmd, nm, rfl⟩ | ⟨hcmd, nm, p, rfl⟩
  · exact ⟨rfl, fun h => h, hinv'.2,
      fun h1 h2 => absurd h2 (by simp [h1]),
      fun h1 h2 => absurd h2 (by omega)⟩
  · by_cases hroom : g.players.length < MAX_PLAYERS
    · obtain ⟨hp, hsid, hst, -⟩ := join_room nm hroom
      refine ⟨hsid, ?_, hinv'.2, ?_, ?_⟩
      · intro h
        rw [hst]
        by_cases hc : g.players.length + 1 = MAX_PLAYERS <;> simp [hc, h]
      · intro h1 h2
        rw [hst] at h2
        by_cases hc : g.players.length + 1 = MAX_PLAYERS
        · exact ⟨hcmd, hc, by rw [hp, List.length_append]; simpa using hc⟩
        · rw [if_neg hc] at h2
          exact absurd h2 (by simp [h1])
      · intro h1 h2
        rw [hp, List.length_append] at h2
        simp only [List.length_singleton] at h2
        rw [hst, if_pos h2]
    · rw [join_full nm hroom]
      exact ⟨rfl, fun h => h, hinv.2,
        fun h1 h2 => absurd h2 (by simp [h1]),
        fun h1 h2 => absurd h2 (by omega)⟩
  · refine ⟨rfl, fun h => h, ?_, ?_, ?_⟩
    · intro h
      simpa [replaceFirstPlayer_length] using hinv.2 h
    · intro h1 h2
      simp only at h2
      exact absurd h2 (by simp [h1])
    · intro h1 h2
      simp only [replaceFirstPlayer_length] at h2
      exact absurd h2 (by omega)

/-! ### Concrete registry states and requests used by the witnesses -/

/-- A concrete stand-in for serde_json's text parser that fails on every
payload (the dispatcher only consults it in the `sendposition` meta path). -/
def parseW : String → Option Json := fun _ => none

def player_start_pos : Position :=
  { x := 0.0, y := 0.0, w := PLAYER_CELL_WIDTH, h := PLAYER_CELL_HEIGHT }

def newgameReq : Json := Json.obj [("command", Json.str "newgame")]

def listgamesReq : Json := Json.obj [("command", Json.str "listgames")]

def joinReq (gid nm : String) : Json :=
  Json.obj [("command", Json.str "joingame"), ("game_id", Json.str gid),
            ("name", Json.str nm)]

def gameinfoNopeReq : Json :=
  Json.obj [("command", Json.str "gameinfo"), ("game_id", Json.str "nope")]

/-- A `sendposition` for an existing game and player but with no `meta`
field at all. -/
def sendposNoMetaReq : Json :=
  Json.obj [("command", Json.str "sendposition"), ("game_id", Json.str "g1"),
            ("name", Json.str "A")]

/-- A `sendposition` for an existing game whose `name` matches no player. -/
def sendposZReq : Json :=
  Json.obj [("command", Json.str "sendposition"), ("game_id", Json.str "g1"),
            ("name", Json.str "Z")]

def games0W : List NetworkedGame := [NetworkedGame.new "g1"]

def g1W : NetworkedGame :=
  { players := [Player.new "A" player_start_pos none], session_id := "g1",
    started := false, completed := false }

def games1W : List NetworkedGame := [g1W]

def g2W : NetworkedGame :=
  { players := [Player.new "A" player_start_pos none, Player.new "B" player_start_pos none],
    session_id := "g1", started := true, completed := false }

def games2W : List NetworkedGame := [g2W]

/-- A registry holding one started and one open session. -/
def gMixedW : List NetworkedGame := [g2W, g1W]

lemma reach0W : Reachable parseW games0W :=
  Reachable.step Reachable.init
    (show handle_decoded parseW [] "g1" newgameReq =
      some (games0W, Json.obj [("game_id", Json.str "g1")]) from rfl)

lemma reach1W : Reachable parseW games1W :=
  Reachable.step reach0W
    (show handle_decoded parseW games0W "x" (joinReq "g1" "A") =
      some (games1W, Json.obj [("info", Json.str "joined not started game g1 with 1 players")]) from rfl)

lemma reach2W : Reachable parseW games2W :=
  Reachable.step reach1W
    (show handle_decoded parseW games1W "x" (joinReq "g1" "B") =
      some (games2W, Json.obj [("info", Json.str "joined started game g1 with 2 players")]) from rfl)

end ItemWars

namespace ItemWars

/-! ## The claims -/

/-- C1 (code bug): the specification's propagation policy says the dispatcher
never panics and always resolves to a response value, for every possible
`meta` field of a matching `sendposition`.  The code violates this: line 610
runs `parsed_request["meta"].as_str().unwrap()` and
`serde_json::from_str::<Player>(..).unwrap()`, so a decodable `sendposition`
request whose `game_id` and `name` match an existing player but whose `meta`
is missing (or not a string, or not an encoded `Player`) panics the server
thread instead of producing a response.  Concretely: against a registry
holding game `g1` with player `A`, the request
`sendposition, game_id = g1, name = A` with no `meta` field makes
`handle_decoded` return `none` - the model's representation of a panic - even
though the game and player match. -/
theorem sendposition_missing_meta_crashes :
    games1W.find? (fun x => x.session_id == "g1") = some g1W ∧
    g1W.players.any (fun p => p.name == "A") = true ∧
    sendposNoMetaReq.strField "command" = some "sendposition" ∧
    handle_decoded parseW games1W "fresh" sendposNoMetaReq = none :=
  ⟨rfl, rfl, rfl, rfl⟩

/-- C2: in every reachable registry every session holds at most
`MAX_PLAYERS` players, and a `joingame` addressed to a session that already
holds `MAX_PLAYERS` players answers the full-game error (with the id in
Rust's `{:?}` Debug quoting) and leaves the registry - in particular that
session's players list - unchanged. -/
theorem capacity_invariant (parse : String → Option Json) (games : List NetworkedGame)
    (hreach : Reachable parse games) :
    (∀ g ∈ games, g.players.length ≤ MAX_PLAYERS) ∧
    (∀ (freshId : String) (req : Json) (g : NetworkedGame),
      req.strField "command" = some "joingame" →
      games.find? (fun x => x.session_id == (req.strField "game_id").getD "") = some g →
      g.players.length = MAX_PLAYERS →
      handle_decoded parse games freshId req =
        some (games, Json.obj [("error",
          Json.str ("game " ++ rustDebugString g.session_id ++ " is full"))])) := by
  constructor
  · intro g hg
    exact (reachable_inv hreach g hg).1
  · intro freshId req g hcmd hfind hfull
    have hnotroom : ¬ g.players.length < MAX_PLAYERS := by omega
    rcases joingameAux_find ((req.strField "game_id").getD "")
        ((req.strField "name").getD "") games g hfind with ⟨l', hl', hmem, hid⟩
    rw [join_full _ hnotroom] at hl' hid
    have hl'' := hid rfl
    rw [handle_decoded_joingame hcmd, hl', hl'']

/-- C2 witness: the conclusion of `capacity_invariant` at the concrete
reachable registry `games2W`, whose single session is full. -/
theorem capacity_invariant_witness :
    (∀ g ∈ games2W, g.players.length ≤ MAX_PLAYERS) ∧
    (∀ (freshId : String) (req : Json) (g : NetworkedGame),
      req.strField "command" = some "joingame" →
      games2W.find? (fun x => x.session_id == (req.strField "game_id").getD "") = some g →
      g.players.length = MAX_PLAYERS →
      handle_decoded parseW games2W freshId req =
        some (games2W, Json.obj [("error",
          Json.str ("game " ++ rustDebugString g.session_id ++ " is full"))])) :=
  capacity_invariant parseW games2W reach2W

/-- C3: across one dispatched step from a reachable registry, pointwise on
the sessions that existed before the step (`newgame` only appends):
session ids are stable; `started` never reverts from true to false; whenever
`started` holds the session has exactly `MAX_PLAYERS` players; a false-to-true
transition happens only on a `joingame`, precisely the one that brings the
players list from `MAX_PLAYERS - 1` to `MAX_PLAYERS`; and conversely the join
that reaches `MAX_PLAYERS` players does set `started`.  Together with
monotonicity this gives the exactly-once transition along any command
sequence. -/
theorem started_flag_step (parse : String → Option Json)
    (games games' : List NetworkedGame) (freshId : String) (req resp : Json)
    (hreach : Reachable parse games)
    (hstep : handle_decoded parse games freshId req = some (games', resp)) :
    List.Forall₂ (fun g g' =>
        g'.session_id = g.session_id ∧
        (g.started = true → g'.started = true) ∧
        (g'.started = true → g'.players.length = MAX_PLAYERS) ∧
        (g.started = false → g'.started = true →
          req.strField "command" = some "joingame" ∧
          g.players.length + 1 = MAX_PLAYERS ∧
          g'.players.length = MAX_PLAYERS) ∧
        (g.players.length < MAX_PLAYERS → g'.players.length = MAX_PLAYERS →
          g'.started = true))
      games (games'.take games.length) := by
  rcases step_shape hstep with ⟨gNew, rfl, hp, hs⟩ | hf
  · rw [List.take_left]
    refine List.forall₂_same.mpr (fun g hg => ?_)
    have hinv := reachable_inv hreach g hg
    exact ⟨rfl, fun h => h, hinv.2,
      fun h1 h2 => absurd h2 (by simp [h1]),
      fun h1 h2 => absurd h2 (by omega)⟩
  · rw [hf.length_eq, List.take_length]
    refine forall₂_imp_mem hf (fun g hg g' hrel => ?_)
    have hprops := sessionStep_props (reachable_inv hreach g hg) hrel
    refine ⟨hprops.1, hprops.2.1, hprops.2.2.1, ?_, hprops.2.2.2.2⟩
    intro h1 h2
    rcases hprops.2.2.2.1 h1 h2 with ⟨hcmd, hlen, hlen'⟩
    exact ⟨getD_eq_some (by decide) hcmd, hlen, hlen'⟩

/-- C3 witness: the step that joins the second player to the one-player
session `g1` of `games1W`, producing the started two-player session. -/
theorem started_flag_step_witness :
    List.Forall₂ (fun g g' =>
        g'.session_id = g.session_id ∧
        (g.started = true → g'.started = true) ∧
        (g'.started = true → g'.players.length = MAX_PLAYERS) ∧
        (g.started = false → g'.started = true →
          (joinReq "g1" "B").strField "command" = some "joingame" ∧
          g.players.length + 1 = MAX_PLAYERS ∧
          g'.players.length = MAX_PLAYERS) ∧
        (g.players.length < MAX_PLAYERS → g'.players.length = MAX_PLAYERS →
          g'.started = true))
      games1W (games2W.take games1W.length) :=
  started_flag_step parseW games1W games2W "x" (joinReq "g1" "B")
    (Json.obj [("info", Json.str "joined started game g1 with 2 players")])
    reach1W rfl

end ItemWars

namespace ItemWars

/-- C4 counterexample: the claim says the full-game response is exactly
`error: game <id> is full` with the session id substituted verbatim.  On the
concrete full session with id `g1`, the code (which formats the id with
Rust's `{:?}`) answers `game "g1" is full` - the id is wrapped in double
quotes - which differs from the verbatim string of the claim. -/
theorem joingame_full_verbatim_counterexample :
    handle_decoded parseW games2W "fresh" (joinReq "g1" "C") =
      some (games2W, Json.obj [("error", Json.str "game \"g1\" is full")]) ∧
    "game \"g1\" is full" ≠ "game g1 is full" :=
  ⟨rfl, by decide⟩

/-- C4 amended: a `joingame` on a session whose players list is full returns
exactly `error: game <id-debug> is full` where `<id-debug>` is the session id
formatted with Rust's `{:?}` Debug formatting (wrapped in double quotes, with
Debug escaping) - not the id verbatim - and the registry is unchanged. -/
theorem joingame_full_debug_quoted (parse : String → Option Json)
    (games : List NetworkedGame) (freshId : String) (req : Json) (g : NetworkedGame)
    (hcmd : req.strField "command" = some "joingame")
    (hfind : games.find? (fun x => x.session_id == (req.strField "game_id").getD "") = some g)
    (hfull : ¬ g.players.length < MAX_PLAYERS) :
    handle_decoded parse games freshId req =
      some (games, Json.obj [("error",
        Json.str ("game " ++ rustDebugString g.session_id ++ " is full"))]) := by
  rcases joingameAux_find ((req.strField "game_id").getD "")
      ((req.strField "name").getD "") games g hfind with ⟨l', hl', hmem, hid⟩
  rw [join_full _ hfull] at hl' hid
  have hl'' := hid rfl
  rw [handle_decoded_joingame hcmd, hl', hl'']

/-- C4 amended witness: the full session `g1` of `games2W` answers the
Debug-quoted full-game error. -/
theorem joingame_full_debug_quoted_witness :
    handle_decoded parseW games2W "fresh" (joinReq "g1" "C") =
      some (games2W, Json.obj [("error",
        Json.str ("game " ++ rustDebugString g2W.session_id ++ " is full"))]) :=
  joingame_full_debug_quoted parseW games2W "fresh" (joinReq "g1" "C") g2W
    rfl rfl (by decide)

/-- C5: `gameinfo`, `sendposition` and `getworld` with a `game_id` that
matches no registered session all answer `error: Invalid Game <id>` (the id
verbatim, Display formatting) and leave the registry completely unchanged. -/
theorem invalid_game_lookup (parse : String → Option Json)
    (games : List NetworkedGame) (freshId : String) (req : Json)
    (hcmd : req.strField "command" = some "gameinfo" ∨
            req.strField "command" = some "sendposition" ∨
            req.strField "command" = some "getworld")
    (hnone : ∀ g ∈ games, g.session_id ≠ (req.strField "game_id").getD "") :
    handle_decoded parse games freshId req =
      some (games, Json.obj [("error",
        Json.str ("Invalid Game " ++ (req.strField "game_id").getD ""))]) := by
  have hb : ∀ g ∈ games, (g.session_id == (req.strField "game_id").getD "") = false :=
    fun g hg => beq_eq_false_iff_ne.mpr (hnone g hg)
  have hfind : games.find? (fun x => x.session_id == (req.strField "game_id").getD "") = none :=
    List.find?_eq_none.mpr (fun g hg => by simp [hb g hg])
  rcases hcmd with h | h | h
  · rw [handle_decoded_gameinfo h, hfind]
    rfl
  · rw [handle_decoded_sendposition h,
        sendpositionAux_not_found parse _ _ _ games hb]
    rfl
  · rw [handle_decoded_getworld h, hfind]
    rfl

/-- C5 witness: `gameinfo` on the fabricated id `nope` against the registry
holding only session `g1`. -/
theorem invalid_game_lookup_witness :
    handle_decoded parseW games1W "fresh" gameinfoNopeReq =
      some (games1W, Json.obj [("error",
        Json.str ("Invalid Game " ++ (gameinfoNopeReq.strField "game_id").getD ""))]) :=
  invalid_game_lookup parseW games1W "fresh" gameinfoNopeReq (Or.inl rfl) (by decide)

/-- C6: a `sendposition` on an existing session whose `name` matches none of
the session's players leaves the registry (hence the session's players,
`started`, `completed` and id) unchanged and answers the unchanged session's
encoding - not an error - creating no player.  The `meta` field is never
touched in this path, so the result holds for every `meta` and parser. -/
theorem sendposition_unknown_name_noop (parse : String → Option Json)
    (games : List NetworkedGame) (freshId : String) (req : Json) (g : NetworkedGame)
    (hcmd : req.strField "command" = some "sendposition")
    (hfind : games.find? (fun x => x.session_id == (req.strField "game_id").getD "") = some g)
    (hname : ∀ p ∈ g.players, p.name ≠ (req.strField "name").getD "") :
    handle_decoded parse games freshId req = some (games, encodeNetworkedGame g) := by
  have hany : g.players.any (fun p => p.name == (req.strField "name").getD "") = false := by
    simp only [List.any_eq_false]
    intro p hp
    simp [hname p hp]
  have hnoop : NetworkedGame.sendposition parse g ((req.strField "name").getD "")
      (req.fieldOr "meta") = some g := by
    unfold NetworkedGame.sendposition
    rw [hany]
    rfl
  rw [handle_decoded_sendposition hcmd,
      sendpositionAux_noop parse _ _ _ games g hfind hnoop]

/-- C6 witness: `sendposition` for the unknown player `Z` against session
`g1` (which only holds player `A`). -/
theorem sendposition_unknown_name_noop_witness :
    handle_decoded parseW games1W "fresh" sendposZReq =
      some (games1W, encodeNetworkedGame g1W) :=
  sendposition_unknown_name_noop parseW games1W "fresh" sendposZReq g1W
    rfl rfl (by decide)

/-- C7: a packet whose payload does not decode as JSON is dropped after the
diagnostic log (`println!`, line 552): no response at all is produced and the
registry is untouched. -/
theorem undecodable_packet_dropped (parse : String → Option Json)
    (games : List NetworkedGame) (freshId : String) (raw : String)
    (hparse : parse raw = none) :
    handle_connection parse games freshId raw = some (games, none) := by
  unfold handle_connection
  rw [hparse]

/-- C7 witness: the always-failing parser on an arbitrary payload. -/
theorem undecodable_packet_dropped_witness :
    handle_connection parseW [] "fresh" "not json" = some ([], none) :=
  undecodable_packet_dropped parseW [] "fresh" "not json" rfl

end ItemWars

namespace ItemWars

/-- C8: the `listgames` response is exactly the non-started sessions, in
registry order, each as the pair of its id and its player count (rendered as
a decimal string, as the code does with `to_string()`); consequently no
session with `started = true` ever appears; and a session created by a
`newgame` and immediately listed appears as the pair of its fresh id and
`0`. -/
theorem listgames_only_open (parse : String → Option Json)
    (games : List NetworkedGame) (freshId : String) (req : Json)
    (hcmd : req.strField "command" = some "listgames") :
    ∃ entries : List Json,
      handle_decoded parse games freshId req =
        some (games, Json.obj [("games", Json.arr entries)]) ∧
      entries = (games.filter (fun g => !g.started)).map (fun g =>
        Json.arr [Json.str g.session_id, Json.str (toString g.players.length)]) ∧
      (∀ e ∈ entries, ∃ g, g ∈ games ∧ g.started = false ∧
        e = Json.arr [Json.str g.session_id, Json.str (toString g.players.length)]) ∧
      (∀ (req2 : Json) (freshId2 : String) (gamesN : List NetworkedGame) (respN : Json),
        req2.strField "command" = some "newgame" →
        handle_decoded parse games freshId2 req2 = some (gamesN, respN) →
        ∃ entriesN : List Json,
          handle_decoded parse gamesN freshId req =
            some (gamesN, Json.obj [("games", Json.arr entriesN)]) ∧
          Json.arr [Json.str freshId2, Json.str "0"] ∈ entriesN) := by
  refine ⟨_, handle_decoded_listgames hcmd, rfl, ?_, ?_⟩
  · intro e he
    rcases List.mem_map.mp he with ⟨g, hg, rfl⟩
    rcases List.mem_filter.mp hg with ⟨hgm, hgs⟩
    exact ⟨g, hgm, by simpa using hgs, rfl⟩
  · intro req2 freshId2 gamesN respN hcmd2 hstep2
    rw [handle_decoded_newgame hcmd2] at hstep2
    simp only [Option.some.injEq, Prod.mk.injEq] at hstep2
    obtain ⟨rfl, -⟩ := hstep2
    refine ⟨_, handle_decoded_listgames hcmd, ?_⟩
    have hval : Json.arr [Json.str (NetworkedGame.new freshId2).session_id,
        Json.str (toString (NetworkedGame.new freshId2).players.length)] =
        Json.arr [Json.str freshId2, Json.str "0"] := by
      show Json.arr [Json.str freshId2, Json.str (toString ([] : List Player).length)] =
        Json.arr [Json.str freshId2, Json.str "0"]
      rfl
    refine List.mem_map.mpr ⟨NetworkedGame.new freshId2, ?_, hval⟩
    exact List.mem_filter.mpr
      ⟨List.mem_append_right _ (List.mem_singleton.mpr rfl), rfl⟩

/-- C8 witness: listing the mixed registry (one started session, one open
session), then a fresh `newgame` followed by an immediate listing. -/
theorem listgames_only_open_witness :
    ∃ entries : List Json,
      handle_decoded parseW gMixedW "fresh" listgamesReq =
        some (gMixedW, Json.obj [("games", Json.arr entries)]) ∧
      entries = (gMixedW.filter (fun g => !g.started)).map (fun g =>
        Json.arr [Json.str g.session_id, Json.str (toString g.players.length)]) ∧
      (∀ e ∈ entries, ∃ g, g ∈ gMixedW ∧ g.started = false ∧
        e = Json.arr [Json.str g.session_id, Json.str (toString g.players.length)]) ∧
      (∀ (req2 : Json) (freshId2 : String) (gamesN : List NetworkedGame) (respN : Json),
        req2.strField "command" = some "newgame" →
        handle_decoded parseW gMixedW freshId2 req2 = some (gamesN, respN) →
        ∃ entriesN : List Json,
          handle_decoded parseW gamesN "fresh" listgamesReq =
            some (gamesN, Json.obj [("games", Json.arr entriesN)]) ∧
          Json.arr [Json.str freshId2, Json.str "0"] ∈ entriesN) :=
  listgames_only_open parseW gMixedW "fresh" listgamesReq rfl

/-- C9: encoding a `Player` to the wire format and decoding the result
succeeds and reproduces the original's body, direction intent, last
direction, hp, mp, str and full jump state; and the wire object carries
exactly the non-transient fields - every field of the struct except the
`skip_serializing` texture handle and last-animation timestamp. -/
theorem player_wire_roundtrip (p : Player) :
    (∃ q : Player, decodePlayer (encodePlayer p) = some q ∧
      q.body = p.body ∧ q.dir = p.dir ∧ q.last_dir = p.last_dir ∧
      q.hp = p.hp ∧ q.mp = p.mp ∧ q.str = p.str ∧
      q.jumping = p.jumping ∧ q.jump_offset = p.jump_offset ∧
      q.jump_direction = p.jump_direction) ∧
    (encodePlayer p).keys = ["body", "dir", "last_dir", "ate", "name", "hp", "mp",
      "str", "current_accel", "jumping", "jump_offset", "jump_direction",
      "animation_frame", "animation_total_frames", "animation_duration"] := by
  constructor
  · rcases p with ⟨body, dir, ld, ate, nm, hp, mp, strv, accel, jmp, joff, jdir, tex, af, atf, la, ad⟩
    cases ate with
    | none => exact ⟨_, rfl, rfl, rfl, rfl, rfl, rfl, rfl, rfl, rfl, rfl⟩
    | some pot =>
        rcases pot with ⟨pos, pt, tex2⟩
        cases pt
        · exact ⟨_, rfl, rfl, rfl, rfl, rfl, rfl, rfl, rfl, rfl, rfl⟩
        · exact ⟨_, rfl, rfl, rfl, rfl, rfl, rfl, rfl, rfl, rfl, rfl⟩
  · rfl

/-- C10: every player appended by a successful `joingame` is exactly
`Player::new(name, origin-rectangle, None)`: body at the origin with the
fixed 34x44 cell, hp 100, mp 30, str 10, no direction intent and no last
direction, not jumping with zero offset (and upward jump phase), starting
acceleration 0.4 - only the name comes from the request. -/
theorem joingame_initial_player_record (parse : String → Option Json)
    (games : List NetworkedGame) (freshId : String) (req : Json) (g : NetworkedGame)
    (hcmd : req.strField "command" = some "joingame")
    (hfind : games.find? (fun x => x.session_id == (req.strField "game_id").getD "") = some g)
    (hroom : g.players.length < MAX_PLAYERS) :
    ∃ (games' : List NetworkedGame) (resp : Json) (g' : NetworkedGame) (p : Player),
      handle_decoded parse games freshId req = some (games', resp) ∧
      g' ∈ games' ∧ g'.session_id = g.session_id ∧
      g'.players = g.players ++ [p] ∧
      p.name = (req.strField "name").getD "" ∧
      p.body = { x := 0.0, y := 0.0, w := 34.0, h := 44.0 } ∧
      p.hp = 100 ∧ p.mp = 30 ∧ p.str = 10 ∧
      p.dir = { up := false, down := false, left := false, right := false } ∧
      p.last_dir = { up := false, down := false, left := false, right := false } ∧
      p.jumping = false ∧ p.jump_offset = 0.0 ∧ p.jump_direction = true ∧
      p.current_accel = 0.4 := by
  rcases joingameAux_find ((req.strField "game_id").getD "")
      ((req.strField "name").getD "") games g hfind with ⟨l', hl', hmem, -⟩
  obtain ⟨hp, hsid, -, -⟩ := join_room ((req.strField "name").getD "") hroom
  refine ⟨l', (g.join ((req.strField "name").getD "")).2,
    (g.join ((req.strField "name").getD "")).1,
    Player.new ((req.strField "name").getD "") player_start_pos none,
    ?_, hmem, hsid, ?_, rfl, rfl, rfl, rfl, rfl, rfl, rfl, rfl, rfl, rfl, rfl⟩
  · rw [handle_decoded_joingame hcmd, hl']
  · exact hp

/-- C10 witness: joining player `A` to the freshly created empty session of
`games0W`. -/
theorem joingame_initial_player_record_witness :
    ∃ (games' : List NetworkedGame) (resp : Json) (g' : NetworkedGame) (p : Player),
      handle_decoded parseW games0W "fresh" (joinReq "g1" "A") = some (games', resp) ∧
      g' ∈ games' ∧ g'.session_id = (NetworkedGame.new "g1").session_id ∧
      g'.players = (NetworkedGame.new "g1").players ++ [p] ∧
      p.name = ((joinReq "g1" "A").strField "name").getD "" ∧
      p.body = { x := 0.0, y := 0.0, w := 34.0, h := 44.0 } ∧
      p.hp = 100 ∧ p.mp = 30 ∧ p.str = 10 ∧
      p.dir = { up := false, down := false, left := false, right := false } ∧
      p.last_dir = { up := false, down := false, left := false, right := false } ∧
      p.jumping = false ∧ p.jump_offset = 0.0 ∧ p.jump_direction = true ∧
      p.current_accel = 0.4 :=
  joingame_initial_player_record parseW games0W "fresh" (joinReq "g1" "A")
    (NetworkedGame.new "g1") rfl rfl (by decide)

end ItemWars
